import Mathlib

/-
Shallow embedding of src/bpf/bpf_load.c (kinvolk/gobpf-elf-loader).

The loader scans an ELF object in three passes: a metadata pass
(license, version, maps, symbol table), a relocation pass (SHT_REL
sections patched and their target program sections loaded), and a
residual pass (remaining program sections loaded).  Kernel calls
(bpf_create_map, bpf_prog_load, getrlimit/setrlimit, system, open,
read, perf_event_open) are modelled as oracles; observable behaviour
is captured as a trace of events.
-/

/-- Size in bytes of struct bpf_insn (linux/filter.h): a fixed 8-byte record. -/
def sizeof_bpf_insn : Nat := 8

/-- Modelled from the spec: struct bpf_map_def is declared in bpf_helpers.h,
which is not under src/; load_maps reads five 4-byte fields
(type, key_size, value_size, max_entries, map_flags), a fixed 20-byte
record.  Every claim uses it only as "the fixed MapDefinition record size". -/
def sizeof_bpf_map_def : Nat := 20

/-- Size of a C int, used by the version-section check. -/
def sizeof_int : Nat := 4

/-- Opcode BPF_LD | BPF_IMM | BPF_DW, the 64-bit immediate load (0x18). -/
def BPF_LD_IMM_DW : Nat := 0x18

/-- Pseudo-register tag marking an immediate as a map-fd reference. -/
def BPF_PSEUDO_MAP_FD : Nat := 1

/-- Map type tag BPF_MAP_TYPE_PROG_ARRAY (linux/bpf.h). -/
def BPF_MAP_TYPE_PROG_ARRAY : Nat := 3

/-- Section type tag SHT_SYMTAB. -/
def SHT_SYMTAB : Nat := 2

/-- Section type tag SHT_REL. -/
def SHT_REL : Nat := 9

/-- errno value EPERM on Linux. -/
def EPERM : Nat := 1

/-- Declared size of the global buffer: static char license[128]. -/
def license_buf_size : Nat := 128

/-- Byte offsets written by memcpy(license, buf, n): offsets 0 .. n-1. -/
def memcpy_offsets (n : Nat) : List Nat := List.range n

/-- One eBPF instruction (struct bpf_insn). -/
structure bpf_insn where
  code : Nat
  dst_reg : Nat
  src_reg : Nat
  off : Int
  imm : Int
deriving DecidableEq, Repr, Inhabited

/-- One map definition record (struct bpf_map_def). -/
structure bpf_map_def where
  type : Nat
  key_size : Nat
  value_size : Nat
  max_entries : Nat
  map_flags : Nat
deriving DecidableEq, Repr, Inhabited

/-- One relocation entry: r_offset and the symbol index GELF_R_SYM(r_info). -/
structure GElf_Rel where
  r_offset : Nat
  r_sym : Nat
deriving DecidableEq, Repr, Inhabited

/-- One symbol-table entry; only st_value is consulted by the loader. -/
structure GElf_Sym where
  st_value : Nat
deriving DecidableEq, Repr, Inhabited

/-- C-string prefix test: strncmp(s, p, n) == 0 for NUL-free strings. -/
def strncmp_eq (s p : List Char) (n : Nat) : Bool := s.take n == p.take n

/-- The literal "kprobe/" (7 characters). -/
def kprobe_pfx : List Char := ['k', 'p', 'r', 'o', 'b', 'e', '/']

/-- The literal "kretprobe/" (10 characters). -/
def kretprobe_pfx : List Char := ['k', 'r', 'e', 't', 'p', 'r', 'o', 'b', 'e', '/']

/-- The literal "tracepoint/" (11 characters). -/
def tracepoint_pfx : List Char := ['t', 'r', 'a', 'c', 'e', 'p', 'o', 'i', 'n', 't', '/']

/-- The literal "xdp". -/
def xdp_pfx : List Char := ['x', 'd', 'p']

/-- The literal "perf_event". -/
def perf_event_pfx : List Char := ['p', 'e', 'r', 'f', '_', 'e', 'v', 'e', 'n', 't']

/-- The literal "socket". -/
def socket_pfx : List Char := ['s', 'o', 'c', 'k', 'e', 't']

/-- The literal "license". -/
def license_name : List Char := ['l', 'i', 'c', 'e', 'n', 's', 'e']

/-- The literal "version". -/
def version_name : List Char := ['v', 'e', 'r', 's', 'i', 'o', 'n']

/-- The literal "maps". -/
def maps_name : List Char := ['m', 'a', 'p', 's']

/-- Loader-visible state of the map globals: int map_fd[32] and prog_array_fd. -/
structure MapsState where
  map_fd : List Int
  prog_array_fd : Int
deriving DecidableEq, Repr

/-- Observable events of the load: kernel map creation calls, the failure
message of load_maps (which prints only errno), the memcpy into the license
buffer, and each load_and_attach invocation with its (discarded) result. -/
inductive Ev where
  | createMap (i : Nat) (d : bpf_map_def)
  | mapFail (errno : Nat)
  | licenseWrite (n : Nat)
  | attach (sec : Nat) (nm : List Char) (res : Int)
deriving DecidableEq, Repr

/-- Oracle for bpf_create_map: fd result and errno of the i-th creation. -/
structure CreateOracle where
  fd : Nat → Int
  errno : Nat → Nat

/-- Loop body of load_maps: for each index i, map_fd[i] = bpf_create_map(...);
a negative fd prints the errno and returns 1 immediately; a PROG_ARRAY map
overwrites the single prog_array_fd slot. -/
def load_maps_go (os : CreateOracle) (maps : List bpf_map_def) (st : MapsState) :
    List Nat → Nat × MapsState × List Ev
  | [] => (0, st, [])
  | i :: rest =>
    let d := maps.getD i default
    let fd := os.fd i
    let st1 : MapsState := { st with map_fd := st.map_fd.set i fd }
    if fd < 0 then
      (1, st1, [Ev.createMap i d, Ev.mapFail (os.errno i)])
    else
      let st2 : MapsState :=
        if d.type = BPF_MAP_TYPE_PROG_ARRAY then { st1 with prog_array_fd := fd } else st1
      let r := load_maps_go os maps st2 rest
      (r.1, r.2.1, Ev.createMap i d :: r.2.2)

/-- load_maps(maps, len): iterates i from 0 to len / sizeof(struct bpf_map_def) - 1. -/
def load_maps (os : CreateOracle) (maps : List bpf_map_def) (len : Nat) (st : MapsState) :
    Nat × MapsState × List Ev :=
  load_maps_go os maps st (List.range (len / sizeof_bpf_map_def))

/-- Result of parse_relo_and_apply: the patched instruction buffer, or the
"invalid relo for insn[idx].code 0x..." failure (return 1). -/
inductive ReloResult where
  | ok (insns : List bpf_insn)
  | badRelo (insn_idx : Nat) (code : Nat)
deriving DecidableEq, Repr

/-- Loop body of parse_relo_and_apply: insn_idx = r_offset / sizeof(bpf_insn);
a target whose opcode is not BPF_LD | BPF_IMM | BPF_DW aborts with return 1;
otherwise src_reg := BPF_PSEUDO_MAP_FD and
imm := map_fd[sym.st_value / sizeof(struct bpf_map_def)] (no range check). -/
def parse_relo_go (syms : List GElf_Sym) (map_fd : List Int)
    (insns : List bpf_insn) : List GElf_Rel → ReloResult
  | [] => .ok insns
  | rel :: rest =>
    let insn_idx := rel.r_offset / sizeof_bpf_insn
    let sym := syms.getD rel.r_sym default
    let ins := insns.getD insn_idx default
    if ins.code ≠ BPF_LD_IMM_DW then
      .badRelo insn_idx ins.code
    else
      let patched : bpf_insn :=
        { ins with src_reg := BPF_PSEUDO_MAP_FD,
                   imm := map_fd.getD (sym.st_value / sizeof_bpf_map_def) 0 }
      parse_relo_go syms map_fd (insns.set insn_idx patched) rest

/-- parse_relo_and_apply: nrels = sh_size / sh_entsize entries are processed. -/
def parse_relo_and_apply (rels : List GElf_Rel) (syms : List GElf_Sym)
    (sh_size sh_entsize : Nat) (map_fd : List Int) (insns : List bpf_insn) : ReloResult :=
  parse_relo_go syms map_fd insns (rels.take (sh_size / sh_entsize))

/-- A struct rlimit value; none stands for RLIM_INFINITY. -/
structure RLim where
  rlim_cur : Option Nat
  rlim_max : Option Nat
deriving DecidableEq, Repr

/-- Environment of one load_and_attach call: bpf_prog_load result per attempt,
getrlimit result (none = call failed), setrlimit outcome, and the results of
system/open/read/perf_event_open used by the attach sequence. -/
structure AttachEnv where
  prog_load : Nat → Int × Nat
  getrlimit_res : Option RLim
  setrlimit_ok : Bool
  setrlimit_errno : Nat
  system_err : Int
  open_fd : Int
  read_res : Int
  perf_fd : Int

/-- Outcome of load_and_attach (each error arm is a printf + return -1). -/
inductive AttachRes where
  | unknownEvent
  | progLoadErr (errno : Nat)
  | setrlimitErr (errno : Nat)
  | emptyEventName
  | probeCreateErr
  | openEventErr
  | readErr
  | perfOpenErr
  | ok (fd : Int)
deriving DecidableEq, Repr

/-- Observable events of load_and_attach: each bpf_prog_load attempt, the
rlimit calls, the probe registration line appended via system(), and the
event-id open / perf_event_open calls. -/
inductive AttachEv where
  | progLoadCall (attempt : Nat)
  | getrlimitCall
  | setrlimitCall (cur mx : Option Nat)
  | probeRegister (entry : Bool) (sym : List Char)
  | openEvent
  | perfOpen
deriving DecidableEq, Repr

/-- Tail of load_and_attach after a successful submission (lines 90-166):
xdp/perf_event return at once; kprobe/kretprobe strip their prefix, reject an
empty remainder, register the probe, then open the id file and the perf event.
The tracepoint arm mirrors lines 126-137 although classification (lines 52-57)
makes it unreachable; the final arm is likewise unreachable. -/
def attach_tail (event : List Char) (env : AttachEnv) (fd : Int) :
    AttachRes × List AttachEv :=
  let is_kprobe := strncmp_eq event kprobe_pfx 7
  let is_kretprobe := strncmp_eq event kretprobe_pfx 10
  let is_tracepoint := strncmp_eq event tracepoint_pfx 11
  let is_xdp := strncmp_eq event xdp_pfx 3
  let is_perf_event := strncmp_eq event perf_event_pfx 10
  if is_xdp || is_perf_event then (.ok fd, [])
  else if is_kprobe || is_kretprobe then
    let ev2 := if is_kprobe then event.drop 7 else event.drop 10
    if ev2 = [] then (.emptyEventName, [])
    else
      if env.system_err < 0 then (.probeCreateErr, [.probeRegister is_kprobe ev2])
      else if env.open_fd < 0 then
        (.openEventErr, [.probeRegister is_kprobe ev2, .openEvent])
      else if env.read_res < 0 ∨ 256 ≤ env.read_res then
        (.readErr, [.probeRegister is_kprobe ev2, .openEvent])
      else if env.perf_fd < 0 then
        (.perfOpenErr, [.probeRegister is_kprobe ev2, .openEvent, .perfOpen])
      else (.ok fd, [.probeRegister is_kprobe ev2, .openEvent, .perfOpen])
  else if is_tracepoint then
    let ev2 := event.drop 11
    if ev2 = [] then (.emptyEventName, [])
    else
      if env.open_fd < 0 then (.openEventErr, [.openEvent])
      else if env.read_res < 0 ∨ 256 ≤ env.read_res then (.readErr, [.openEvent])
      else if env.perf_fd < 0 then (.perfOpenErr, [.openEvent, .perfOpen])
      else (.ok fd, [.openEvent, .perfOpen])
  else (.ok fd, [])

/-- load_and_attach (lines 35-167): classification admits only kprobe and
kretprobe names; submission failing with EPERM triggers getrlimit, raising
both rlimit fields to RLIM_INFINITY via setrlimit, and one retry; any other
failure, a failing setrlimit, or a failing retry prints the error and
returns -1; a failing getrlimit falls through to the fd < 0 check. -/
def load_and_attach (event : List Char) (env : AttachEnv) :
    AttachRes × List AttachEv :=
  let is_kprobe := strncmp_eq event kprobe_pfx 7
  let is_kretprobe := strncmp_eq event kretprobe_pfx 10
  if ¬ (is_kprobe || is_kretprobe) then (.unknownEvent, [])
  else
    let r0 := env.prog_load 0
    if r0.1 < 0 ∧ r0.2 = EPERM then
      match env.getrlimit_res with
      | some _rl =>
        if env.setrlimit_ok then
          let r1 := env.prog_load 1
          let pre : List AttachEv :=
            [.progLoadCall 0, .getrlimitCall, .setrlimitCall none none, .progLoadCall 1]
          if r1.1 < 0 then (.progLoadErr r1.2, pre)
          else
            let t := attach_tail event env r1.1
            (t.1, pre ++ t.2)
        else
          (.setrlimitErr env.setrlimit_errno,
           [.progLoadCall 0, .getrlimitCall, .setrlimitCall none none])
      | none => (.progLoadErr r0.2, [.progLoadCall 0, .getrlimitCall])
    else
      if r0.1 < 0 then (.progLoadErr r0.2, [.progLoadCall 0])
      else
        let t := attach_tail event env r0.1
        (t.1, [AttachEv.progLoadCall 0] ++ t.2)

/-- Recognizes a bpf_prog_load attempt event. -/
def is_prog_load_ev : AttachEv → Bool
  | .progLoadCall _ => true
  | _ => false

/-- Recognizes a setrlimit call event. -/
def is_setrlimit_ev : AttachEv → Bool
  | .setrlimitCall _ _ => true
  | _ => false

/-- Number of bpf_prog_load attempts recorded in a trace. -/
def prog_load_count (t : List AttachEv) : Nat := t.countP is_prog_load_ev

/-- Number of setrlimit calls recorded in a trace. -/
def setrlimit_count (t : List AttachEv) : Nat := t.countP is_setrlimit_ev

/-- Typed view of a section's data buffer (the C code casts d_buf). -/
inductive SectPayload where
  | bytes (bs : List Nat)
  | mapDefs (ds : List bpf_map_def)
  | progInsns (xs : List bpf_insn)
  | symTab (xs : List GElf_Sym)
  | relTab (xs : List GElf_Rel)
deriving DecidableEq, Repr

/-- View the buffer as raw bytes (license/version sections). -/
def SectPayload.asBytes : SectPayload → List Nat
  | .bytes bs => bs
  | _ => []

/-- View the buffer as packed struct bpf_map_def records (maps section). -/
def SectPayload.asMapDefs : SectPayload → List bpf_map_def
  | .mapDefs ds => ds
  | _ => []

/-- View the buffer as struct bpf_insn records (program sections). -/
def SectPayload.asInsns : SectPayload → List bpf_insn
  | .progInsns xs => xs
  | _ => []

/-- View the buffer as symbol-table entries. -/
def SectPayload.asSyms : SectPayload → List GElf_Sym
  | .symTab xs => xs
  | _ => []

/-- View the buffer as relocation entries. -/
def SectPayload.asRels : SectPayload → List GElf_Rel
  | .relTab xs => xs
  | _ => []

/-- One ELF section as seen through gelf: name (none when elf_strptr fails),
type, info and entsize from the header, the data size, and the data buffer. -/
structure ElfSection where
  shname : Option (List Char)
  sh_type : Nat
  sh_info : Nat
  sh_entsize : Nat
  sh_size : Nat
  d_size : Nat
  payload : SectPayload
deriving DecidableEq, Repr

/-- A parsed ELF object: sections indexed from 0 (index 0 is the null section). -/
structure ElfObj where
  sections : List ElfSection
deriving DecidableEq, Repr

/-- get_sec (lines 192-213): fails (and the caller skips the section) when the
index is out of range, the section has no name, or its size is zero. -/
def get_sec (o : ElfObj) (i : Nat) : Option ElfSection :=
  match o.sections.get? i with
  | none => none
  | some s =>
    match s.shname with
    | none => none
    | some _ => if s.sh_size = 0 then none else some s

/-- The six recognized program-section name tests of lines 323-328 / 342-347. -/
def prog_name_matches (nm : List Char) : Bool :=
  strncmp_eq nm kprobe_pfx 7 || strncmp_eq nm kretprobe_pfx 10 ||
  strncmp_eq nm tracepoint_pfx 11 || strncmp_eq nm xdp_pfx 3 ||
  strncmp_eq nm perf_event_pfx 10 || strncmp_eq nm socket_pfx 6

/-- Little-endian decoding of the first four bytes (memcpy into an int). -/
def le32 (bs : List Nat) : Nat :=
  bs.getD 0 0 + 256 * bs.getD 1 0 + 65536 * bs.getD 2 0 + 16777216 * bs.getD 3 0

/-- Loader globals populated by load_bpf_file: license bytes, kern_version,
the processed_sec markers, the map globals, the symbol table, and a counter
of load_and_attach calls. -/
structure LoadState where
  license : List Nat
  kern_version : Nat
  processed : List Nat
  maps_st : MapsState
  symbols : Option (List GElf_Sym)
  attach_count : Nat
deriving DecidableEq, Repr

/-- Initial loader state: zeroed globals, prog_array_fd = -1. -/
def init_state : LoadState :=
  { license := [], kern_version := 0, processed := [],
    maps_st := { map_fd := List.replicate 32 0, prog_array_fd := -1 },
    symbols := none, attach_count := 0 }

/-- Oracles of load_bpf_file: map creation results and, for each
load_and_attach call, the int result the caller receives (and discards). -/
structure Oracles where
  create : CreateOracle
  attach_res : Nat → Int

/-- First pass of load_bpf_file (lines 273-301): license is memcpy'd with no
bound check, version requires d_size == sizeof(int) and aborts otherwise,
maps runs load_maps and aborts on its failure, SHT_SYMTAB is remembered. -/
def scan_sections (o : ElfObj) (cr : CreateOracle) (st : LoadState) :
    List Nat → Nat × LoadState × List Ev
  | [] => (0, st, [])
  | i :: rest =>
    match get_sec o i with
    | none => scan_sections o cr st rest
    | some s =>
      let nm := s.shname.getD []
      if nm = license_name then
        let st1 : LoadState :=
          { st with processed := i :: st.processed,
                    license := s.payload.asBytes.take s.d_size }
        let r := scan_sections o cr st1 rest
        (r.1, r.2.1, Ev.licenseWrite s.d_size :: r.2.2)
      else if nm = version_name then
        let st1 : LoadState := { st with processed := i :: st.processed }
        if s.d_size ≠ sizeof_int then (1, st1, [])
        else
          let st2 : LoadState := { st1 with kern_version := le32 s.payload.asBytes }
          scan_sections o cr st2 rest
      else if nm = maps_name then
        let st1 : LoadState := { st with processed := i :: st.processed }
        let r := load_maps cr s.payload.asMapDefs s.d_size st1.maps_st
        if r.1 ≠ 0 then (1, { st1 with maps_st := r.2.1 }, r.2.2)
        else
          let st2 : LoadState := { st1 with maps_st := r.2.1 }
          let rr := scan_sections o cr st2 rest
          (rr.1, rr.2.1, r.2.2 ++ rr.2.2)
      else if s.sh_type = SHT_SYMTAB then
        scan_sections o cr { st with symbols := some s.payload.asSyms } rest
      else scan_sections o cr st rest

/-- Second pass of load_bpf_file (lines 304-331): for each SHT_REL section
whose target resolves, both sections are marked processed before
parse_relo_and_apply runs; a failing relocation continues with the next
section; on success a recognized program name is loaded and attached,
the call's result being discarded. -/
def relo_pass (o : ElfObj) (os : Oracles) (st : LoadState) :
    List Nat → LoadState × List Ev
  | [] => (st, [])
  | i :: rest =>
    match get_sec o i with
    | none => relo_pass o os st rest
    | some s =>
      if s.sh_type = SHT_REL then
        match get_sec o s.sh_info with
        | none => relo_pass o os st rest
        | some sp =>
          let st1 : LoadState := { st with processed := s.sh_info :: i :: st.processed }
          match parse_relo_and_apply s.payload.asRels (st.symbols.getD [])
              s.sh_size s.sh_entsize st.maps_st.map_fd sp.payload.asInsns with
          | .badRelo _ _ => relo_pass o os st1 rest
          | .ok _patched =>
            let nm := sp.shname.getD []
            if prog_name_matches nm then
              let res := os.attach_res st1.attach_count
              let r := relo_pass o os { st1 with attach_count := st1.attach_count + 1 } rest
              (r.1, Ev.attach s.sh_info nm res :: r.2)
            else relo_pass o os st1 rest
      else relo_pass o os st rest

/-- Third pass of load_bpf_file (lines 334-349): sections already marked
processed are skipped; remaining recognized program sections are loaded and
attached, the call's result again being discarded. -/
def resid_pass (o : ElfObj) (os : Oracles) (st : LoadState) :
    List Nat → LoadState × List Ev
  | [] => (st, [])
  | i :: rest =>
    if i ∈ st.processed then resid_pass o os st rest
    else
      match get_sec o i with
      | none => resid_pass o os st rest
      | some s =>
        let nm := s.shname.getD []
        if prog_name_matches nm then
          let res := os.attach_res st.attach_count
          let r := resid_pass o os { st with attach_count := st.attach_count + 1 } rest
          (r.1, Ev.attach i nm res :: r.2)
        else resid_pass o os st rest

/-- Section indices walked by every pass: i = 1 .. e_shnum - 1. -/
def load_idxs (o : ElfObj) : List Nat := (List.range o.sections.length).drop 1

/-- load_bpf_file (lines 245-353) over an already-opened object: the metadata
pass may abort with 1; otherwise the relocation and residual passes run and
the function returns 0 regardless of their outcomes. -/
def load_bpf_file (o : ElfObj) (os : Oracles) : Nat × LoadState × List Ev :=
  let r := scan_sections o os.create init_state (load_idxs o)
  if r.1 ≠ 0 then (1, r.2.1, r.2.2)
  else
    let p2 := relo_pass o os r.2.1 (load_idxs o)
    let p3 := resid_pass o os p2.1 (load_idxs o)
    (0, p3.1, r.2.2 ++ p2.2 ++ p3.2)

/-- The mapFail events of a trace: all information the failure report of
load_maps carries (the printf prints errno and strerror only). -/
def map_fail_report (evs : List Ev) : List Ev :=
  evs.filter (fun e => match e with | Ev.mapFail _ => true | _ => false)

/-- Concrete map definitions used by the C3 scenarios (three records). -/
def c3_defs : List bpf_map_def :=
  [⟨1, 4, 4, 4, 0⟩, ⟨1, 4, 4, 8, 0⟩, ⟨1, 4, 8, 16, 0⟩]

/-- Creation oracle that fails immediately (errno 12). -/
def c3_oracle_a : CreateOracle := { fd := fun _ => -1, errno := fun _ => 12 }

/-- Creation oracle that succeeds twice (fds 3, 4) then fails (errno 12). -/
def c3_oracle_b : CreateOracle :=
  { fd := fun i => if i < 2 then 3 + (i : Int) else -1, errno := fun _ => 12 }

/-- Concrete map definitions for C9: two PROG_ARRAY records then a hash map. -/
def c9_defs : List bpf_map_def :=
  [⟨3, 4, 4, 4, 0⟩, ⟨3, 4, 4, 8, 0⟩, ⟨1, 4, 8, 16, 0⟩]

/-- Creation oracle for C9: the i-th creation returns fd 10 + i. -/
def c9_oracle : CreateOracle := { fd := fun i => 10 + (i : Int), errno := fun _ => 0 }

/-- Concrete event name for the C4 witness: "kprobe/foo". -/
def c4_event : List Char := ['k', 'p', 'r', 'o', 'b', 'e', '/', 'f', 'o', 'o']

/-- Environment for the C4 witness: the first submission fails with EPERM,
the rlimit calls succeed, and the retry fails with errno 13. -/
def c4_env : AttachEnv :=
  { prog_load := fun n => if n = 0 then (-1, 1) else (-1, 13),
    getrlimit_res := some ⟨some 65536, some 65536⟩,
    setrlimit_ok := true, setrlimit_errno := 0,
    system_err := 0, open_fd := 3, read_res := 2, perf_fd := 4 }

/-- Environment for the C8 scenarios: submission succeeds with fd 5 and
every attach-sequence call succeeds. -/
def c8_env : AttachEnv :=
  { prog_load := fun _ => (5, 0),
    getrlimit_res := some ⟨some 65536, some 65536⟩,
    setrlimit_ok := true, setrlimit_errno := 0,
    system_err := 0, open_fd := 3, read_res := 2, perf_fd := 4 }

/-- The null section at index 0 of every concrete test object. -/
def null_sec : ElfSection :=
  { shname := none, sh_type := 0, sh_info := 0, sh_entsize := 0, sh_size := 0,
    d_size := 0, payload := .bytes [] }

/-- Program-section name "kprobe/foo" used by the concrete objects. -/
def c5_prog_name : List Char := ['k', 'p', 'r', 'o', 'b', 'e', '/', 'f', 'o', 'o']

/-- A program section holding a 64-bit-immediate-load instruction pair. -/
def c5_prog_sec : ElfSection :=
  { shname := some c5_prog_name, sh_type := 1, sh_info := 0, sh_entsize := 0,
    sh_size := 16, d_size := 16,
    payload := .progInsns [⟨0x18, 1, 0, 0, 0⟩, ⟨0, 0, 0, 0, 0⟩] }

/-- A relocation section targeting section 1 with one entry for symbol 0. -/
def c5_rel_sec : ElfSection :=
  { shname := some ['.', 'r', 'e', 'l'], sh_type := SHT_REL, sh_info := 1,
    sh_entsize := 16, sh_size := 16, d_size := 16, payload := .relTab [⟨0, 0⟩] }

/-- A symbol table with one symbol at st_value 0. -/
def c5_sym_sec : ElfSection :=
  { shname := some ['.', 's', 'y', 'm'], sh_type := SHT_SYMTAB, sh_info := 0,
    sh_entsize := 24, sh_size := 24, d_size := 24, payload := .symTab [⟨0⟩] }

/-- Object for the C5 witness: a relocatable program plus its relocation
section and symbol table. -/
def c5_obj : ElfObj := { sections := [null_sec, c5_prog_sec, c5_rel_sec, c5_sym_sec] }

/-- Oracles for the load_bpf_file scenarios: maps are created with fds
20, 21, ... and every load_and_attach call reports success. -/
def c5_os : Oracles :=
  { create := { fd := fun i => 20 + (i : Int), errno := fun _ => 0 },
    attach_res := fun _ => 0 }

/-- Program section whose instruction is NOT a 64-bit immediate load. -/
def c2w_prog_sec : ElfSection :=
  { shname := some c5_prog_name, sh_type := 1, sh_info := 0, sh_entsize := 0,
    sh_size := 8, d_size := 8, payload := .progInsns [⟨0x07, 0, 0, 0, 0⟩] }

/-- Relocation section for the C2 witness, targeting section 1. -/
def c2w_rel_sec : ElfSection :=
  { shname := some ['.', 'r', 'e', 'l'], sh_type := SHT_REL, sh_info := 1,
    sh_entsize := 16, sh_size := 16, d_size := 16, payload := .relTab [⟨0, 0⟩] }

/-- Object for the C2 witness: the single relocation entry hits a non-load
opcode, so relocation of that section fails. -/
def c2w_obj : ElfObj :=
  { sections := [null_sec, c2w_prog_sec, c2w_rel_sec, c5_sym_sec] }

/-- Object for C6: a license section of 129 bytes, one byte longer than the
128-byte license buffer. -/
def c6_obj : ElfObj :=
  { sections := [null_sec,
      { shname := some license_name, sh_type := 1, sh_info := 0, sh_entsize := 0,
        sh_size := 129, d_size := 129, payload := .bytes (List.replicate 129 71) }] }

/-- A maps section holding one 20-byte map definition. -/
def c7_maps_sec : ElfSection :=
  { shname := some maps_name, sh_type := 1, sh_info := 0, sh_entsize := 0,
    sh_size := 20, d_size := 20, payload := .mapDefs [⟨1, 4, 4, 4, 0⟩] }

/-- A version section with a 3-byte payload (not sizeof(int)). -/
def c7_ver_sec : ElfSection :=
  { shname := some version_name, sh_type := 1, sh_info := 0, sh_entsize := 0,
    sh_size := 3, d_size := 3, payload := .bytes [1, 2, 3] }

/-- Object for the C7 counterexample: the maps section precedes the
malformed version section in section order. -/
def c7_obj : ElfObj := { sections := [null_sec, c7_maps_sec, c7_ver_sec] }

/-- Object for the C7 witness: the malformed version section precedes the
maps section. -/
def c7w_obj : ElfObj := { sections := [null_sec, c7_ver_sec, c7_maps_sec] }

/-- Object for the C10 witness: a license section plus a kprobe program
section, so the metadata pass succeeds and one attach call happens. -/
def c10_obj : ElfObj :=
  { sections := [null_sec,
      { shname := some license_name, sh_type := 1, sh_info := 0, sh_entsize := 0,
        sh_size := 4, d_size := 4, payload := .bytes [71, 80, 76, 0] },
      c5_prog_sec] }

/-- Failing attach oracle for C10: every load_and_attach call reports -1. -/
def c10_fail : Nat → Int := fun _ => -1

/-! Helper lemmas shared by several claims. -/

theorem getD_set_self_h (l : List Int) (i : Nat) (v : Int) (h : i < l.length) :
    (l.set i v).getD i 0 = v := by
  simp [List.getD, List.getElem?_set_self', h]

theorem getD_set_ne_h (l : List Int) (i k : Nat) (v : Int) (h : i ≠ k) :
    (l.set i v).getD k 0 = l.getD k 0 := by
  simp [List.getD, List.getElem?_set_ne h]

theorem range_decomp (k N : Nat) (h : k < N) :
    List.range N = List.range k ++ k :: (List.range N).drop (k + 1) := by
  have h1 : (List.range N).take k = List.range k := by
    rw [List.take_range]
    congr 1
    omega
  conv_lhs => rw [← List.take_append_drop k (List.range N)]
  rw [h1]
  congr 1
  rw [List.drop_eq_getElem_cons (by simpa using h)]
  simp

/-! Facts about load_maps. -/

theorem load_maps_go_success (os : CreateOracle) (maps : List bpf_map_def) :
    ∀ (L : List Nat) (st : MapsState), (∀ i ∈ L, ¬ os.fd i < 0) →
      (load_maps_go os maps st L).1 = 0 ∧
      (load_maps_go os maps st L).2.2 =
        L.map (fun i => Ev.createMap i (maps.getD i default)) := by
  intro L
  induction L with
  | nil => intro st h; simp [load_maps_go]
  | cons i rest ih =>
    intro st h
    have hi : ¬ os.fd i < 0 := h i (by simp)
    have h' : ∀ j ∈ rest, ¬ os.fd j < 0 := fun j hj => h j (by simp [hj])
    by_cases hpa : (maps.getD i default).type = BPF_MAP_TYPE_PROG_ARRAY
    · simp only [load_maps_go, if_neg hi, if_pos hpa, List.map_cons]
      exact ⟨(ih _ h').1, by simp [(ih _ h').2]⟩
    · simp only [load_maps_go, if_neg hi, if_neg hpa, List.map_cons]
      exact ⟨(ih _ h').1, by simp [(ih _ h').2]⟩

theorem load_maps_go_map_fd_frame (os : CreateOracle) (maps : List bpf_map_def) (k : Nat) :
    ∀ (L : List Nat) (st : MapsState), k ∉ L →
      (load_maps_go os maps st L).2.1.map_fd.getD k 0 = st.map_fd.getD k 0 := by
  intro L
  induction L with
  | nil => intro st _; simp [load_maps_go]
  | cons i rest ih =>
    intro st hk
    have hik : i ≠ k := fun h => hk (by simp [h])
    have hkr : k ∉ rest := fun h => hk (by simp [h])
    by_cases hfd : os.fd i < 0
    · simp only [load_maps_go, if_pos hfd]
      exact getD_set_ne_h _ _ _ _ hik
    · simp only [load_maps_go, if_neg hfd]
      by_cases hpa : (maps.getD i default).type = BPF_MAP_TYPE_PROG_ARRAY
      · simp only [if_pos hpa]
        rw [ih _ hkr]
        exact getD_set_ne_h _ _ _ _ hik
      · simp only [if_neg hpa]
        rw [ih _ hkr]
        exact getD_set_ne_h _ _ _ _ hik

theorem load_maps_go_length (os : CreateOracle) (maps : List bpf_map_def) :
    ∀ (L : List Nat) (st : MapsState),
      (load_maps_go os maps st L).2.1.map_fd.length = st.map_fd.length := by
  intro L
  induction L with
  | nil => intro st; simp [load_maps_go]
  | cons i rest ih =>
    intro st
    by_cases hfd : os.fd i < 0
    · simp only [load_maps_go, if_pos hfd]
      simp
    · by_cases hpa : (maps.getD i default).type = BPF_MAP_TYPE_PROG_ARRAY
      · simp only [load_maps_go, if_neg hfd, if_pos hpa]
        rw [ih]
        simp
      · simp only [load_maps_go, if_neg hfd, if_neg hpa]
        rw [ih]
        simp

theorem load_maps_go_map_fd (os : CreateOracle) (maps : List bpf_map_def) (k : Nat) :
    ∀ (L : List Nat) (st : MapsState), (∀ i ∈ L, ¬ os.fd i < 0) →
      L.Pairwise (· < ·) → k ∈ L → k < st.map_fd.length →
      (load_maps_go os maps st L).2.1.map_fd.getD k 0 = os.fd k := by
  intro L
  induction L with
  | nil => intro st _ _ hk; simp at hk
  | cons i rest ih =>
    intro st h hp hk hlen
    have hi : ¬ os.fd i < 0 := h i (by simp)
    simp only [load_maps_go, if_neg hi]
    rcases List.mem_cons.mp hk with hki | hkr
    · subst hki
      have hnr : k ∉ rest := fun hmem => by
        have := (List.pairwise_cons.mp hp).1 k hmem
        omega
      by_cases hpa : (maps.getD k default).type = BPF_MAP_TYPE_PROG_ARRAY
      · simp only [if_pos hpa]
        rw [load_maps_go_map_fd_frame os maps k rest _ hnr]
        exact getD_set_self_h _ _ _ hlen
      · simp only [if_neg hpa]
        rw [load_maps_go_map_fd_frame os maps k rest _ hnr]
        exact getD_set_self_h _ _ _ hlen
    · have hik : i ≠ k := by
        have := (List.pairwise_cons.mp hp).1 k hkr
        omega
      have hrec : ∀ st2 : MapsState, st2.map_fd = st.map_fd.set i (os.fd i) →
          (load_maps_go os maps st2 rest).2.1.map_fd.getD k 0 = os.fd k := by
        intro st2 hst2
        apply ih st2 (fun j hj => h j (by simp [hj])) (List.pairwise_cons.mp hp).2 hkr
        rw [hst2]
        simpa using hlen
      by_cases hpa : (maps.getD i default).type = BPF_MAP_TYPE_PROG_ARRAY
      · simp only [if_pos hpa]
        exact hrec _ rfl
      · simp only [if_neg hpa]
        exact hrec _ rfl

theorem load_maps_go_append (os : CreateOracle) (maps : List bpf_map_def) :
    ∀ (L1 L2 : List Nat) (st : MapsState), (∀ i ∈ L1, ¬ os.fd i < 0) →
      load_maps_go os maps st (L1 ++ L2) =
        ((load_maps_go os maps (load_maps_go os maps st L1).2.1 L2).1,
         (load_maps_go os maps (load_maps_go os maps st L1).2.1 L2).2.1,
         (load_maps_go os maps st L1).2.2 ++
           (load_maps_go os maps (load_maps_go os maps st L1).2.1 L2).2.2) := by
  intro L1
  induction L1 with
  | nil => intro L2 st _; simp [load_maps_go]
  | cons i rest ih =>
    intro L2 st h
    have hi : ¬ os.fd i < 0 := h i (by simp)
    have h' : ∀ j ∈ rest, ¬ os.fd j < 0 := fun j hj => h j (by simp [hj])
    rw [List.cons_append]
    by_cases hpa : (maps.getD i default).type = BPF_MAP_TYPE_PROG_ARRAY
    · simp only [load_maps_go, if_neg hi, if_pos hpa]
      rw [ih L2 _ h']
      simp
    · simp only [load_maps_go, if_neg hi, if_neg hpa]
      rw [ih L2 _ h']
      simp

theorem load_maps_go_fail_head (os : CreateOracle) (maps : List bpf_map_def)
    (i : Nat) (rest : List Nat) (st : MapsState) (h : os.fd i < 0) :
    load_maps_go os maps st (i :: rest) =
      (1, { st with map_fd := st.map_fd.set i (os.fd i) },
       [Ev.createMap i (maps.getD i default), Ev.mapFail (os.errno i)]) := by
  simp [load_maps_go, if_pos h]

theorem load_maps_go_paf_const (os : CreateOracle) (maps : List bpf_map_def) :
    ∀ (L : List Nat) (st : MapsState), (∀ i ∈ L, ¬ os.fd i < 0) →
      (∀ i ∈ L, (maps.getD i default).type ≠ BPF_MAP_TYPE_PROG_ARRAY) →
      (load_maps_go os maps st L).2.1.prog_array_fd = st.prog_array_fd := by
  intro L
  induction L with
  | nil => intro st _ _; simp [load_maps_go]
  | cons i rest ih =>
    intro st h hpa
    have hi : ¬ os.fd i < 0 := h i (by simp)
    have hpi : ¬ (maps.getD i default).type = BPF_MAP_TYPE_PROG_ARRAY := hpa i (by simp)
    simp only [load_maps_go, if_neg hi, if_neg hpi]
    exact ih _ (fun j hj => h j (by simp [hj])) (fun j hj => hpa j (by simp [hj]))

theorem load_maps_go_paf_last (os : CreateOracle) (maps : List bpf_map_def) (j : Nat)
    (hj : (maps.getD j default).type = BPF_MAP_TYPE_PROG_ARRAY) :
    ∀ (L : List Nat) (st : MapsState), L.Pairwise (· < ·) →
      (∀ i ∈ L, ¬ os.fd i < 0) → j ∈ L →
      (∀ i ∈ L, j < i → (maps.getD i default).type ≠ BPF_MAP_TYPE_PROG_ARRAY) →
      (load_maps_go os maps st L).2.1.prog_array_fd = os.fd j := by
  intro L
  induction L with
  | nil => intro st _ _ hmem; simp at hmem
  | cons i rest ih =>
    intro st hp h hmem hlast
    have hi : ¬ os.fd i < 0 := h i (by simp)
    rcases List.mem_cons.mp hmem with hji | hjr
    · subst hji
      simp only [load_maps_go, if_neg hi, if_pos hj]
      exact load_maps_go_paf_const os maps rest _
        (fun x hx => h x (by simp [hx]))
        (fun x hx => hlast x (by simp [hx]) ((List.pairwise_cons.mp hp).1 x hx))
    · by_cases hpa : (maps.getD i default).type = BPF_MAP_TYPE_PROG_ARRAY
      · simp only [load_maps_go, if_neg hi, if_pos hpa]
        exact ih _ (List.pairwise_cons.mp hp).2 (fun x hx => h x (by simp [hx])) hjr
          (fun x hx hlt => hlast x (by simp [hx]) hlt)
      · simp only [load_maps_go, if_neg hi, if_neg hpa]
        exact ih _ (List.pairwise_cons.mp hp).2 (fun x hx => h x (by simp [hx])) hjr
          (fun x hx hlt => hlast x (by simp [hx]) hlt)

/-- C9: when a map-definition list contains two or more PROG_ARRAY
definitions and all creations succeed, the single remembered program-array
handle after load_maps is the handle of the last PROG_ARRAY map created
(the slot is overwritten on each matching map: last wins). -/
theorem claim_C9 (os : CreateOracle) (maps : List bpf_map_def) (len : Nat)
    (st : MapsState) (j j' : Nat)
    (hsucc : ∀ i, i < len / sizeof_bpf_map_def → ¬ os.fd i < 0)
    (hj : j < len / sizeof_bpf_map_def)
    (hjPA : (maps.getD j default).type = BPF_MAP_TYPE_PROG_ARRAY)
    (hlast : ∀ i, i < len / sizeof_bpf_map_def → j < i →
      (maps.getD i default).type ≠ BPF_MAP_TYPE_PROG_ARRAY)
    (_hj' : j' < j)
    (_hj'PA : (maps.getD j' default).type = BPF_MAP_TYPE_PROG_ARRAY) :
    (load_maps os maps len st).2.1.prog_array_fd = os.fd j := by
  unfold load_maps
  exact load_maps_go_paf_last os maps j hjPA (List.range _) st
    (List.pairwise_lt_range _)
    (fun i hi => hsucc i (List.mem_range.mp hi))
    (List.mem_range.mpr hj)
    (fun i hi hlt => hlast i (List.mem_range.mp hi) hlt)

/-- C9 witness: two PROG_ARRAY definitions (indices 0 and 1) and a third map;
the remembered program-array handle is the second PROG_ARRAY map's fd 11. -/
theorem claim_C9_witness :
    (load_maps c9_oracle c9_defs 60 init_state.maps_st).2.1.prog_array_fd = 11 := by
  have h := claim_C9 c9_oracle c9_defs 60 init_state.maps_st 1 0
    (by decide) (by decide) (by decide) (by decide) (by decide) (by decide)
  exact h.trans (by decide)

/-- C1: a relocation entry whose target instruction (at index
r_offset / sizeof(struct bpf_insn)) carries the BPF_LD | BPF_IMM | BPF_DW
opcode is resolved by computing the map index as the symbol's st_value
divided by sizeof(struct bpf_map_def), and patching the instruction:
src_reg becomes BPF_PSEUDO_MAP_FD and imm becomes the map handle stored at
that creation index of the map_fd table. -/
theorem claim_C1 (rel : GElf_Rel) (syms : List GElf_Sym) (map_fd : List Int)
    (insns : List bpf_insn) (entsize : Nat) (he : entsize ≠ 0)
    (hcode : (insns.getD (rel.r_offset / sizeof_bpf_insn) default).code = BPF_LD_IMM_DW) :
    parse_relo_and_apply [rel] syms entsize entsize map_fd insns =
      .ok (insns.set (rel.r_offset / sizeof_bpf_insn)
        { insns.getD (rel.r_offset / sizeof_bpf_insn) default with
          src_reg := BPF_PSEUDO_MAP_FD,
          imm := map_fd.getD
            ((syms.getD rel.r_sym default).st_value / sizeof_bpf_map_def) 0 }) := by
  unfold parse_relo_and_apply
  rw [Nat.div_self (Nat.pos_of_ne_zero he)]
  simp only [List.take_succ_cons, List.take_nil, parse_relo_go, hcode]
  simp [parse_relo_go]

/-- C1 witness: the entry at r_offset 16 targets instruction 2 (a 64-bit
immediate load); symbol st_value 40 gives map index 2; the handle 12 stored
there is patched into imm, with src_reg set to BPF_PSEUDO_MAP_FD. -/
theorem claim_C1_witness :
    parse_relo_and_apply [⟨16, 0⟩] [⟨40⟩] 8 8 [10, 11, 12]
        [⟨0, 0, 0, 0, 0⟩, ⟨0, 0, 0, 0, 0⟩, ⟨0x18, 1, 0, 0, 0⟩] =
      .ok [⟨0, 0, 0, 0, 0⟩, ⟨0, 0, 0, 0, 0⟩, ⟨0x18, 1, 1, 0, 12⟩] := by
  have h := claim_C1 ⟨16, 0⟩ [⟨40⟩] [10, 11, 12]
    [⟨0, 0, 0, 0, 0⟩, ⟨0, 0, 0, 0, 0⟩, ⟨0x18, 1, 0, 0, 0⟩] 8
    (by decide) (by decide)
  exact h.trans (by decide)

/-- C2 counterexample: a relocation entry whose computed map index (st_value
100 / 20 = 5) is out of range of the single created map (only map_fd[0] = 7
holds a real handle) yields NO RelocationError: the target opcode is the
64-bit immediate load, so parse_relo_and_apply succeeds and silently patches
imm with the stale zero entry of the global map_fd array. -/
theorem claim_C2_counterexample :
    100 / sizeof_bpf_map_def = 5 ∧
    parse_relo_and_apply [⟨0, 0⟩] [⟨100⟩] 16 16
        ((7 : Int) :: List.replicate 31 0)
        [⟨0x18, 1, 0, 0, 0⟩, ⟨0, 0, 0, 0, 0⟩] =
      .ok [⟨0x18, 1, 1, 0, 0⟩, ⟨0, 0, 0, 0, 0⟩] := by
  exact ⟨by decide, by decide⟩

/-- C3 amended: with N = section byte length / sizeof(struct bpf_map_def)
(remainder truncated), load_maps issues exactly N create calls in definition
order and fills map_fd[0..N-1] in definition order; on the first failed
creation it stops immediately after that call and reports the failure
(printing only errno, not the failing index), leaving every
already-created map in place (no cleanup). -/
theorem claim_C3_amended (os : CreateOracle) (maps : List bpf_map_def) (len : Nat)
    (st : MapsState)
    (_hN : maps.length = len / sizeof_bpf_map_def)
    (hcap : len / sizeof_bpf_map_def ≤ st.map_fd.length) :
    ((∀ i, i < len / sizeof_bpf_map_def → ¬ os.fd i < 0) →
      (load_maps os maps len st).1 = 0 ∧
      (load_maps os maps len st).2.2 =
        (List.range (len / sizeof_bpf_map_def)).map
          (fun i => Ev.createMap i (maps.getD i default)) ∧
      (∀ i, i < len / sizeof_bpf_map_def →
        (load_maps os maps len st).2.1.map_fd.getD i 0 = os.fd i)) ∧
    (∀ k, k < len / sizeof_bpf_map_def → os.fd k < 0 →
      (∀ i, i < k → ¬ os.fd i < 0) →
      (load_maps os maps len st).1 = 1 ∧
      (load_maps os maps len st).2.2 =
        (List.range k).map (fun i => Ev.createMap i (maps.getD i default)) ++
          [Ev.createMap k (maps.getD k default), Ev.mapFail (os.errno k)] ∧
      (∀ i, i < k → (load_maps os maps len st).2.1.map_fd.getD i 0 = os.fd i)) := by
  constructor
  · intro hsucc
    have hmem : ∀ i ∈ List.range (len / sizeof_bpf_map_def), ¬ os.fd i < 0 :=
      fun i hi => hsucc i (List.mem_range.mp hi)
    refine ⟨(load_maps_go_success os maps _ st hmem).1,
            (load_maps_go_success os maps _ st hmem).2, ?_⟩
    intro i hi
    exact load_maps_go_map_fd os maps i _ st hmem (List.pairwise_lt_range _)
      (List.mem_range.mpr hi) (lt_of_lt_of_le hi hcap)
  · intro k hk hkfail hpre
    have hdec := range_decomp k (len / sizeof_bpf_map_def) hk
    have hpre' : ∀ i ∈ List.range k, ¬ os.fd i < 0 :=
      fun i hi => hpre i (List.mem_range.mp hi)
    have happ := load_maps_go_append os maps (List.range k)
      (k :: (List.range (len / sizeof_bpf_map_def)).drop (k + 1)) st hpre'
    have hfail := load_maps_go_fail_head os maps k
      ((List.range (len / sizeof_bpf_map_def)).drop (k + 1))
      (load_maps_go os maps st (List.range k)).2.1 hkfail
    have hmain : load_maps os maps len st =
        (1, { (load_maps_go os maps st (List.range k)).2.1 with
                map_fd := (load_maps_go os maps st (List.range k)).2.1.map_fd.set k (os.fd k) },
         (load_maps_go os maps st (List.range k)).2.2 ++
           [Ev.createMap k (maps.getD k default), Ev.mapFail (os.errno k)]) := by
      unfold load_maps
      rw [hdec, happ, hfail]
    refine ⟨by rw [hmain], ?_, ?_⟩
    · rw [hmain]
      simp [(load_maps_go_success os maps _ st hpre').2]
    · intro i hi
      rw [hmain]
      simp only
      rw [getD_set_ne_h _ _ _ _ (by omega)]
      exact load_maps_go_map_fd os maps i _ st hpre' (List.pairwise_lt_range _)
        (List.mem_range.mpr hi) (by omega)

/-- C3 counterexample: the failure report of load_maps does not say which
index failed.  Two runs over the same three definitions, one failing at
creation index 0 and one failing at creation index 2 (after two successes),
emit the very same failure report (only errno 12), so the claim that the
loader "reports which index failed" is false: the report is identical for
different failing indices. -/
theorem claim_C3_counterexample :
    (load_maps c3_oracle_a c3_defs 60 init_state.maps_st).1 = 1 ∧
    (load_maps c3_oracle_b c3_defs 60 init_state.maps_st).1 = 1 ∧
    (load_maps c3_oracle_a c3_defs 60 init_state.maps_st).2.2.length = 2 ∧
    (load_maps c3_oracle_b c3_defs 60 init_state.maps_st).2.2.length = 4 ∧
    map_fail_report (load_maps c3_oracle_a c3_defs 60 init_state.maps_st).2.2 =
      map_fail_report (load_maps c3_oracle_b c3_defs 60 init_state.maps_st).2.2 := by
  refine ⟨by decide, by decide, by decide, by decide, by decide⟩

/-- C3 witness: the amended theorem applied to the oracle failing at index 2
after successes at 0 and 1: the run stops with return 1 and map_fd[1] still
holds the fd 4 created for definition 1 (no cleanup). -/
theorem claim_C3_witness :
    (load_maps c3_oracle_b c3_defs 60 init_state.maps_st).1 = 1 ∧
    (load_maps c3_oracle_b c3_defs 60 init_state.maps_st).2.1.map_fd.getD 1 0 = 4 := by
  have h := (claim_C3_amended c3_oracle_b c3_defs 60 init_state.maps_st
    (by decide) (by decide)).2 2 (by decide) (by decide) (by decide)
  exact ⟨h.1, ((h.2.2 1 (by decide)).trans (by decide))⟩

/-! Facts about load_and_attach. -/

theorem strncmp_clash {ev p q : List Char} {n k : Nat}
    (h : ev.take n = p) (hq : strncmp_eq ev q k = true) :
    p.take k = (q.take k).take n := by
  have h1 : ev.take k = q.take k := by simpa [strncmp_eq] using hq
  calc p.take k = (ev.take n).take k := by rw [h]
    _ = ev.take (min k n) := List.take_take k n ev
    _ = (ev.take k).take n := by rw [List.take_take, Nat.min_comm]
    _ = (q.take k).take n := by rw [h1]

theorem strncmp_false_of_take {ev p q : List Char} {n k : Nat}
    (h : ev.take n = p) (hne : p.take k ≠ (q.take k).take n) :
    strncmp_eq ev q k = false := by
  cases hc : strncmp_eq ev q k with
  | false => rfl
  | true => exact absurd (strncmp_clash h hc) hne

theorem load_and_attach_unknown (event : List Char) (env : AttachEnv)
    (hor : (strncmp_eq event kprobe_pfx 7 || strncmp_eq event kretprobe_pfx 10) = false) :
    load_and_attach event env = (.unknownEvent, []) := by
  simp only [load_and_attach]
  rw [if_pos]
  simp [hor]

theorem load_and_attach_fail_other (event : List Char) (env : AttachEnv)
    (hor : (strncmp_eq event kprobe_pfx 7 || strncmp_eq event kretprobe_pfx 10) = true)
    (h1 : (env.prog_load 0).1 < 0) (h2 : (env.prog_load 0).2 ≠ EPERM) :
    load_and_attach event env = (.progLoadErr (env.prog_load 0).2, [.progLoadCall 0]) := by
  simp only [load_and_attach]
  rw [if_neg (not_not_intro hor), if_neg (fun hc => h2 hc.2), if_pos h1]

theorem load_and_attach_ok (event : List Char) (env : AttachEnv)
    (hor : (strncmp_eq event kprobe_pfx 7 || strncmp_eq event kretprobe_pfx 10) = true)
    (h1 : ¬ (env.prog_load 0).1 < 0) :
    load_and_attach event env =
      ((attach_tail event env (env.prog_load 0).1).1,
       [AttachEv.progLoadCall 0] ++ (attach_tail event env (env.prog_load 0).1).2) := by
  simp only [load_and_attach]
  rw [if_neg (not_not_intro hor), if_neg (fun hc => h1 hc.1), if_neg h1]

theorem load_and_attach_eperm_nogetrlimit (event : List Char) (env : AttachEnv)
    (hor : (strncmp_eq event kprobe_pfx 7 || strncmp_eq event kretprobe_pfx 10) = true)
    (h1 : (env.prog_load 0).1 < 0) (h2 : (env.prog_load 0).2 = EPERM)
    (hg : env.getrlimit_res = none) :
    load_and_attach event env =
      (.progLoadErr (env.prog_load 0).2, [.progLoadCall 0, .getrlimitCall]) := by
  simp only [load_and_attach]
  rw [if_neg (not_not_intro hor), if_pos ⟨h1, h2⟩, hg]

theorem load_and_attach_eperm_setfail (event : List Char) (env : AttachEnv)
    (hor : (strncmp_eq event kprobe_pfx 7 || strncmp_eq event kretprobe_pfx 10) = true)
    (h1 : (env.prog_load 0).1 < 0) (h2 : (env.prog_load 0).2 = EPERM)
    (rl : RLim) (hg : env.getrlimit_res = some rl) (hs : env.setrlimit_ok = false) :
    load_and_attach event env =
      (.setrlimitErr env.setrlimit_errno,
       [.progLoadCall 0, .getrlimitCall, .setrlimitCall none none]) := by
  simp only [load_and_attach]
  rw [if_neg (not_not_intro hor), if_pos ⟨h1, h2⟩, hg]
  simp [hs]

theorem load_and_attach_eperm_retry (event : List Char) (env : AttachEnv)
    (hor : (strncmp_eq event kprobe_pfx 7 || strncmp_eq event kretprobe_pfx 10) = true)
    (h1 : (env.prog_load 0).1 < 0) (h2 : (env.prog_load 0).2 = EPERM)
    (rl : RLim) (hg : env.getrlimit_res = some rl) (hs : env.setrlimit_ok = true) :
    load_and_attach event env =
      (if (env.prog_load 1).1 < 0 then
        (.progLoadErr (env.prog_load 1).2,
         [.progLoadCall 0, .getrlimitCall, .setrlimitCall none none, .progLoadCall 1])
       else
        ((attach_tail event env (env.prog_load 1).1).1,
         [.progLoadCall 0, .getrlimitCall, .setrlimitCall none none, .progLoadCall 1] ++
           (attach_tail event env (env.prog_load 1).1).2)) := by
  simp only [load_and_attach]
  rw [if_neg (not_not_intro hor), if_pos ⟨h1, h2⟩, hg]
  simp [hs]

theorem attach_tail_countP_pl (event : List Char) (env : AttachEnv) (fd : Int) :
    (attach_tail event env fd).2.countP is_prog_load_ev = 0 := by
  simp only [attach_tail]
  repeat' split
  all_goals simp [List.countP_cons, is_prog_load_ev]

theorem attach_tail_countP_srl (event : List Char) (env : AttachEnv) (fd : Int) :
    (attach_tail event env fd).2.countP is_setrlimit_ev = 0 := by
  simp only [attach_tail]
  repeat' split
  all_goals simp [List.countP_cons, is_setrlimit_ev]

theorem load_and_attach_counts (event : List Char) (env : AttachEnv) :
    prog_load_count (load_and_attach event env).2 ≤ 2 ∧
    setrlimit_count (load_and_attach event env).2 ≤ 1 := by
  by_cases hor : (strncmp_eq event kprobe_pfx 7 || strncmp_eq event kretprobe_pfx 10) = true
  · by_cases hep : (env.prog_load 0).1 < 0 ∧ (env.prog_load 0).2 = EPERM
    · cases hg : env.getrlimit_res with
      | none =>
        rw [load_and_attach_eperm_nogetrlimit event env hor hep.1 hep.2 hg]
        simp [prog_load_count, setrlimit_count, List.countP_cons, is_prog_load_ev,
          is_setrlimit_ev]
      | some rl =>
        cases hs : env.setrlimit_ok with
        | false =>
          rw [load_and_attach_eperm_setfail event env hor hep.1 hep.2 rl hg hs]
          simp [prog_load_count, setrlimit_count, List.countP_cons, is_prog_load_ev,
            is_setrlimit_ev]
        | true =>
          rw [load_and_attach_eperm_retry event env hor hep.1 hep.2 rl hg hs]
          by_cases h1 : (env.prog_load 1).1 < 0
          · rw [if_pos h1]
            simp [prog_load_count, setrlimit_count, List.countP_cons, is_prog_load_ev,
              is_setrlimit_ev]
          · rw [if_neg h1]
            simp [prog_load_count, setrlimit_count, List.countP_append, List.countP_cons,
              is_prog_load_ev, is_setrlimit_ev, attach_tail_countP_pl, attach_tail_countP_srl]
    · by_cases h1 : (env.prog_load 0).1 < 0
      · have h2 : (env.prog_load 0).2 ≠ EPERM := fun hc => hep ⟨h1, hc⟩
        rw [load_and_attach_fail_other event env hor h1 h2]
        simp [prog_load_count, setrlimit_count, List.countP_cons, is_prog_load_ev,
          is_setrlimit_ev]
      · rw [load_and_attach_ok event env hor h1]
        simp [prog_load_count, setrlimit_count, List.countP_append, List.countP_cons,
          is_prog_load_ev, is_setrlimit_ev, attach_tail_countP_pl, attach_tail_countP_srl]
  · rw [load_and_attach_unknown event env (by simpa using hor)]
    simp [prog_load_count, setrlimit_count]

/-- C4: for a kprobe- or kretprobe-classified submission: a failure other
than EPERM is reported verbatim after a single attempt with no recovery; a
failure with EPERM, when the rlimit calls succeed, triggers exactly one
escalation (getrlimit, then setrlimit raising both soft and hard limits to
RLIM_INFINITY) and exactly one retry, and a second failure is reported
verbatim; in every run there are at most two submission attempts and at
most one escalation. -/
theorem claim_C4 (event : List Char) (env : AttachEnv)
    (hk : strncmp_eq event kprobe_pfx 7 = true ∨ strncmp_eq event kretprobe_pfx 10 = true) :
    (prog_load_count (load_and_attach event env).2 ≤ 2 ∧
     setrlimit_count (load_and_attach event env).2 ≤ 1) ∧
    (((env.prog_load 0).1 < 0 ∧ (env.prog_load 0).2 ≠ EPERM) →
      load_and_attach event env =
        (.progLoadErr (env.prog_load 0).2, [.progLoadCall 0])) ∧
    (((env.prog_load 0).1 < 0 ∧ (env.prog_load 0).2 = EPERM ∧
        (∃ rl, env.getrlimit_res = some rl) ∧ env.setrlimit_ok = true) →
      prog_load_count (load_and_attach event env).2 = 2 ∧
      setrlimit_count (load_and_attach event env).2 = 1 ∧
      (load_and_attach event env).2.take 4 =
        [.progLoadCall 0, .getrlimitCall, .setrlimitCall none none, .progLoadCall 1] ∧
      ((env.prog_load 1).1 < 0 →
        load_and_attach event env =
          (.progLoadErr (env.prog_load 1).2,
           [.progLoadCall 0, .getrlimitCall, .setrlimitCall none none, .progLoadCall 1]))) := by
  have hor : (strncmp_eq event kprobe_pfx 7 || strncmp_eq event kretprobe_pfx 10) = true := by
    rcases hk with h | h <;> simp [h]
  refine ⟨load_and_attach_counts event env, ?_, ?_⟩
  · rintro ⟨h1, h2⟩
    exact load_and_attach_fail_other event env hor h1 h2
  · rintro ⟨h1, h2, ⟨rl, hg⟩, hs⟩
    have heq := load_and_attach_eperm_retry event env hor h1 h2 rl hg hs
    by_cases hr1 : (env.prog_load 1).1 < 0
    · rw [heq, if_pos hr1]
      refine ⟨?_, ?_, ?_, fun _ => rfl⟩ <;>
        simp [prog_load_count, setrlimit_count, List.countP_cons, is_prog_load_ev,
          is_setrlimit_ev]
    · rw [heq, if_neg hr1]
      refine ⟨?_, ?_, ?_, fun hc => absurd hc hr1⟩
      · simp [prog_load_count, List.countP_append, List.countP_cons, is_prog_load_ev,
          attach_tail_countP_pl]
      · simp [setrlimit_count, List.countP_append, List.countP_cons, is_setrlimit_ev,
          attach_tail_countP_srl]
      · simp

/-- C4 witness: with "kprobe/foo", EPERM on the first attempt, working rlimit
calls and a retry failing with errno 13, the run makes exactly two attempts
and reports the second error verbatim. -/
theorem claim_C4_witness :
    load_and_attach c4_event c4_env =
      (.progLoadErr 13,
       [.progLoadCall 0, .getrlimitCall, .setrlimitCall none none, .progLoadCall 1]) ∧
    prog_load_count (load_and_attach c4_event c4_env).2 = 2 := by
  have h := claim_C4 c4_event c4_env (Or.inl (by decide))
  have h3 := h.2.2 ⟨by decide, by decide, ⟨⟨some 65536, some 65536⟩, by decide⟩, by decide⟩
  exact ⟨(h3.2.2.2 (by decide)).trans (by decide), h3.1⟩

theorem attach_tail_kprobe (event : List Char) (env : AttachEnv) (fd : Int)
    (h7 : event.take 7 = kprobe_pfx) :
    attach_tail event env fd =
      (if event.drop 7 = [] then (.emptyEventName, [])
       else
         if env.system_err < 0 then
           (.probeCreateErr, [.probeRegister true (event.drop 7)])
         else if env.open_fd < 0 then
           (.openEventErr, [.probeRegister true (event.drop 7), .openEvent])
         else if env.read_res < 0 ∨ 256 ≤ env.read_res then
           (.readErr, [.probeRegister true (event.drop 7), .openEvent])
         else if env.perf_fd < 0 then
           (.perfOpenErr, [.probeRegister true (event.drop 7), .openEvent, .perfOpen])
         else (.ok fd, [.probeRegister true (event.drop 7), .openEvent, .perfOpen])) := by
  have hkp : strncmp_eq event kprobe_pfx 7 = true := by
    simp only [strncmp_eq]
    rw [h7]
    decide
  have hxdp : strncmp_eq event xdp_pfx 3 = false :=
    strncmp_false_of_take h7 (by decide)
  have hpe : strncmp_eq event perf_event_pfx 10 = false :=
    strncmp_false_of_take h7 (by decide)
  simp only [attach_tail, hkp, hxdp, hpe]
  simp

theorem attach_tail_kretprobe (event : List Char) (env : AttachEnv) (fd : Int)
    (h10 : event.take 10 = kretprobe_pfx) :
    attach_tail event env fd =
      (if event.drop 10 = [] then (.emptyEventName, [])
       else
         if env.system_err < 0 then
           (.probeCreateErr, [.probeRegister false (event.drop 10)])
         else if env.open_fd < 0 then
           (.openEventErr, [.probeRegister false (event.drop 10), .openEvent])
         else if env.read_res < 0 ∨ 256 ≤ env.read_res then
           (.readErr, [.probeRegister false (event.drop 10), .openEvent])
         else if env.perf_fd < 0 then
           (.perfOpenErr, [.probeRegister false (event.drop 10), .openEvent, .perfOpen])
         else (.ok fd, [.probeRegister false (event.drop 10), .openEvent, .perfOpen])) := by
  have hkr : strncmp_eq event kretprobe_pfx 10 = true := by
    simp only [strncmp_eq]
    rw [h10]
    decide
  have hkp : strncmp_eq event kprobe_pfx 7 = false :=
    strncmp_false_of_take h10 (by decide)
  have hxdp : strncmp_eq event xdp_pfx 3 = false :=
    strncmp_false_of_take h10 (by decide)
  have hpe : strncmp_eq event perf_event_pfx 10 = false :=
    strncmp_false_of_take h10 (by decide)
  simp only [attach_tail, hkr, hkp, hxdp, hpe]
  simp

/-- C8 amended: only the kprobe (7-character entry) and kretprobe
(10-character return) prefixes are stripped: the remainder is the raw target
symbol used in the registered probe line, and a name that is exactly the
prefix fails with the empty-event-name error before any probe registration;
a name with the 11-character tracepoint prefix never reaches stripping,
because classification rejects it up front with the unknown-event error. -/
theorem claim_C8_amended (event : List Char) (env : AttachEnv) :
    (event.take 7 = kprobe_pfx → ¬ (env.prog_load 0).1 < 0 → event.drop 7 = [] →
      load_and_attach event env = (.emptyEventName, [.progLoadCall 0])) ∧
    (event.take 7 = kprobe_pfx → ¬ (env.prog_load 0).1 < 0 → event.drop 7 ≠ [] →
      AttachEv.probeRegister true (event.drop 7) ∈ (load_and_attach event env).2) ∧
    (event.take 10 = kretprobe_pfx → ¬ (env.prog_load 0).1 < 0 → event.drop 10 = [] →
      load_and_attach event env = (.emptyEventName, [.progLoadCall 0])) ∧
    (event.take 10 = kretprobe_pfx → ¬ (env.prog_load 0).1 < 0 → event.drop 10 ≠ [] →
      AttachEv.probeRegister false (event.drop 10) ∈ (load_and_attach event env).2) ∧
    (event.take 11 = tracepoint_pfx →
      load_and_attach event env = (.unknownEvent, [])) := by
  refine ⟨?_, ?_, ?_, ?_, ?_⟩
  · intro h7 h1 hemp
    have hkp : strncmp_eq event kprobe_pfx 7 = true := by
      simp only [strncmp_eq]
      rw [h7]
      decide
    rw [load_and_attach_ok event env (by simp [hkp]) h1,
      attach_tail_kprobe event env _ h7, if_pos hemp]
    rfl
  · intro h7 h1 hne
    have hkp : strncmp_eq event kprobe_pfx 7 = true := by
      simp only [strncmp_eq]
      rw [h7]
      decide
    rw [load_and_attach_ok event env (by simp [hkp]) h1,
      attach_tail_kprobe event env _ h7, if_neg hne]
    repeat' split
    all_goals simp
  · intro h10 h1 hemp
    have hkr : strncmp_eq event kretprobe_pfx 10 = true := by
      simp only [strncmp_eq]
      rw [h10]
      decide
    rw [load_and_attach_ok event env (by simp [hkr]) h1,
      attach_tail_kretprobe event env _ h10, if_pos hemp]
    rfl
  · intro h10 h1 hne
    have hkr : strncmp_eq event kretprobe_pfx 10 = true := by
      simp only [strncmp_eq]
      rw [h10]
      decide
    rw [load_and_attach_ok event env (by simp [hkr]) h1,
      attach_tail_kretprobe event env _ h10, if_neg hne]
    repeat' split
    all_goals simp
  · intro h11
    have hkp : strncmp_eq event kprobe_pfx 7 = false :=
      strncmp_false_of_take h11 (by decide)
    have hkr : strncmp_eq event kretprobe_pfx 10 = false :=
      strncmp_false_of_take h11 (by decide)
    exact load_and_attach_unknown event env (by simp [hkp, hkr])

/-- C8 counterexample: tracepoint names never reach prefix stripping.  With
"tracepoint/x" (and with the bare prefix "tracepoint/"), classification at
the top of load_and_attach admits only kprobe and kretprobe, so the call
fails with the unknown-event error and an empty trace: no prefix is
stripped, no registration occurs, and the bare-prefix name does not produce
the empty-event-name (InvalidEventName) error the claim requires.  (The
tracepoint prefix is also 11 characters, not 10.) -/
theorem claim_C8_counterexample :
    load_and_attach ['t', 'r', 'a', 'c', 'e', 'p', 'o', 'i', 'n', 't', '/', 'x'] c8_env =
      (.unknownEvent, []) ∧
    load_and_attach ['t', 'r', 'a', 'c', 'e', 'p', 'o', 'i', 'n', 't', '/'] c8_env =
      (.unknownEvent, []) ∧
    (AttachRes.unknownEvent ≠ AttachRes.emptyEventName) := by
  exact ⟨by decide, by decide, by decide⟩

/-- C8 witness: "kprobe/" (bare prefix) fails with the empty-event-name
error before any probe registration; "kretprobe/foo" registers the raw
symbol "foo" obtained by stripping the 10-character return prefix. -/
theorem claim_C8_witness :
    load_and_attach ['k', 'p', 'r', 'o', 'b', 'e', '/'] c8_env =
      (.emptyEventName, [.progLoadCall 0]) ∧
    AttachEv.probeRegister false (['f', 'o', 'o'] : List Char) ∈
      (load_and_attach ['k', 'r', 'e', 't', 'p', 'r', 'o', 'b', 'e', '/', 'f', 'o', 'o']
        c8_env).2 := by
  have ha := claim_C8_amended ['k', 'p', 'r', 'o', 'b', 'e', '/'] c8_env
  have hb := claim_C8_amended
    ['k', 'r', 'e', 't', 'p', 'r', 'o', 'b', 'e', '/', 'f', 'o', 'o'] c8_env
  refine ⟨ha.1 (by decide) (by decide) (by decide), ?_⟩
  have hm := hb.2.2.2.1 (by decide) (by decide) (by decide)
  rw [show (['f', 'o', 'o'] : List Char) =
    (['k', 'r', 'e', 't', 'p', 'r', 'o', 'b', 'e', '/', 'f', 'o', 'o'] : List Char).drop 10
    from by decide]
  exact hm

/-! Facts about the three passes of load_bpf_file. -/

theorem relo_pass_preserves (o : ElfObj) (os : Oracles) :
    ∀ (L : List Nat) (st : LoadState),
      (relo_pass o os st L).1.symbols = st.symbols ∧
      (relo_pass o os st L).1.maps_st = st.maps_st := by
  intro L
  induction L with
  | nil => intro st; simp [relo_pass]
  | cons i rest ih =>
    intro st
    simp only [relo_pass]
    repeat' split
    all_goals simp [ih]

theorem relo_pass_processed_mono (o : ElfObj) (os : Oracles) :
    ∀ (L : List Nat) (st : LoadState) (x : Nat), x ∈ st.processed →
      x ∈ (relo_pass o os st L).1.processed := by
  intro L
  induction L with
  | nil => intro st x hx; simpa [relo_pass] using hx
  | cons i rest ih =>
    intro st x hx
    simp only [relo_pass]
    repeat' split
    all_goals first
      | exact ih _ _ hx
      | exact ih _ _ (by simp [hx])

theorem relo_pass_marks (o : ElfObj) (os : Oracles) (i : Nat) (s sp : ElfSection)
    (hgs : get_sec o i = some s) (hrel : s.sh_type = SHT_REL)
    (hgt : get_sec o s.sh_info = some sp) :
    ∀ (L : List Nat) (st : LoadState), i ∈ L →
      i ∈ (relo_pass o os st L).1.processed ∧
      s.sh_info ∈ (relo_pass o os st L).1.processed := by
  intro L
  induction L with
  | nil => intro st h; simp at h
  | cons j rest ih =>
    intro st hmem
    rcases List.mem_cons.mp hmem with hji | hjr
    · subst hji
      simp only [relo_pass, hgs, hrel, hgt, if_true]
      cases hp : parse_relo_and_apply s.payload.asRels (st.symbols.getD [])
          s.sh_size s.sh_entsize st.maps_st.map_fd sp.payload.asInsns with
      | badRelo a b =>
        constructor
        · exact relo_pass_processed_mono o os rest _ i (by simp)
        · exact relo_pass_processed_mono o os rest _ s.sh_info (by simp)
      | ok patched =>
        by_cases hnm : prog_name_matches (sp.shname.getD []) = true
        · simp only [hnm, if_true]
          constructor
          · exact relo_pass_processed_mono o os rest _ i (by simp)
          · exact relo_pass_processed_mono o os rest _ s.sh_info (by simp)
        · simp only [hnm]
          rw [if_neg (by simp [hnm])]
          constructor
          · exact relo_pass_processed_mono o os rest _ i (by simp)
          · exact relo_pass_processed_mono o os rest _ s.sh_info (by simp)
    · simp only [relo_pass]
      repeat' split
      all_goals exact ih _ hjr

theorem resid_pass_no_attach_processed (o : ElfObj) (os : Oracles) (j : Nat) :
    ∀ (L : List Nat) (st : LoadState), j ∈ st.processed →
      ∀ nm r, Ev.attach j nm r ∉ (resid_pass o os st L).2 := by
  intro L
  induction L with
  | nil => intro st _ nm r; simp [resid_pass]
  | cons i rest ih =>
    intro st hj nm r
    simp only [resid_pass]
    by_cases hp : i ∈ st.processed
    · rw [if_pos hp]
      exact ih st hj nm r
    · rw [if_neg hp]
      cases hg : get_sec o i with
      | none => exact ih st hj nm r
      | some s =>
        by_cases hm : prog_name_matches (s.shname.getD []) = true
        · simp only [hm, if_true]
          intro hin
          rcases List.mem_cons.mp hin with heq | hin2
          · have hji : j = i := by
              injection heq
            exact hp (hji ▸ hj)
          · exact ih _ (by simpa using hj) nm r hin2
        · simp only [hm]
          rw [if_neg (by simp [hm])]
          exact ih st hj nm r

theorem load_maps_go_no_attach (os : CreateOracle) (maps : List bpf_map_def)
    (j : Nat) (nm : List Char) (res : Int) :
    ∀ (L : List Nat) (st : MapsState),
      Ev.attach j nm res ∉ (load_maps_go os maps st L).2.2 := by
  intro L
  induction L with
  | nil => intro st; simp [load_maps_go]
  | cons i rest ih =>
    intro st
    by_cases hfd : os.fd i < 0
    · simp only [load_maps_go, if_pos hfd]
      simp
    · by_cases hpa : (maps.getD i default).type = BPF_MAP_TYPE_PROG_ARRAY
      · simp only [load_maps_go, if_neg hfd, if_pos hpa]
        simp only [List.mem_cons]
        rintro (h | h)
        · exact Ev.noConfusion h
        · exact ih _ h
      · simp only [load_maps_go, if_neg hfd, if_neg hpa]
        simp only [List.mem_cons]
        rintro (h | h)
        · exact Ev.noConfusion h
        · exact ih _ h

theorem scan_no_attach (o : ElfObj) (cr : CreateOracle) (j : Nat) (nm : List Char)
    (r : Int) :
    ∀ (L : List Nat) (st : LoadState),
      Ev.attach j nm r ∉ (scan_sections o cr st L).2.2 := by
  intro L
  induction L with
  | nil => intro st; simp [scan_sections]
  | cons i rest ih =>
    intro st
    cases hg : get_sec o i with
    | none =>
      simp only [scan_sections, hg]
      exact ih st
    | some s =>
      simp only [scan_sections, hg]
      by_cases hlic : s.shname.getD [] = license_name
      · rw [if_pos hlic]
        simp only [List.mem_cons]
        rintro (h | h)
        · exact Ev.noConfusion h
        · exact ih _ h
      · rw [if_neg hlic]
        by_cases hver : s.shname.getD [] = version_name
        · rw [if_pos hver]
          by_cases hsz : s.d_size ≠ sizeof_int
          · rw [if_pos hsz]
            simp
          · rw [if_neg hsz]
            exact ih _
        · rw [if_neg hver]
          by_cases hmaps : s.shname.getD [] = maps_name
          · rw [if_pos hmaps]
            by_cases hr : (load_maps cr s.payload.asMapDefs s.d_size
                { st with processed := i :: st.processed }.maps_st).1 ≠ 0
            · rw [if_pos hr]
              exact load_maps_go_no_attach cr s.payload.asMapDefs j nm r _ _
            · rw [if_neg hr]
              simp only [List.mem_append]
              rintro (h | h)
              · exact load_maps_go_no_attach cr s.payload.asMapDefs j nm r _ _ h
              · exact ih _ h
          · rw [if_neg hmaps]
            by_cases hsym : s.sh_type = SHT_SYMTAB
            · rw [if_pos hsym]
              exact ih _
            · rw [if_neg hsym]
              exact ih _

theorem relo_pass_attach_events (o : ElfObj) (os : Oracles) :
    ∀ (L : List Nat) (st : LoadState) (ev : Ev), ev ∈ (relo_pass o os st L).2 →
      ∃ i s sp res insns2,
        i ∈ L ∧ get_sec o i = some s ∧ s.sh_type = SHT_REL ∧
        get_sec o s.sh_info = some sp ∧
        parse_relo_and_apply s.payload.asRels (st.symbols.getD [])
          s.sh_size s.sh_entsize st.maps_st.map_fd sp.payload.asInsns =
          ReloResult.ok insns2 ∧
        ev = Ev.attach s.sh_info (sp.shname.getD []) res := by
  intro L
  induction L with
  | nil => intro st ev h; simp [relo_pass] at h
  | cons j rest ih =>
    intro st ev hev
    cases hg : get_sec o j with
    | none =>
      simp only [relo_pass, hg] at hev
      obtain ⟨i, s, sp, res, insns2, hi, h2, h3, h4, h5, h6⟩ := ih st ev hev
      exact ⟨i, s, sp, res, insns2, List.mem_cons_of_mem j hi, h2, h3, h4, h5, h6⟩
    | some s =>
      by_cases hrel : s.sh_type = SHT_REL
      · cases hgt : get_sec o s.sh_info with
        | none =>
          simp only [relo_pass, hg, hrel, if_true, hgt] at hev
          obtain ⟨i, s2, sp, res, insns2, hi, h2, h3, h4, h5, h6⟩ := ih st ev hev
          exact ⟨i, s2, sp, res, insns2, List.mem_cons_of_mem j hi, h2, h3, h4, h5, h6⟩
        | some sp =>
          cases hp : parse_relo_and_apply s.payload.asRels (st.symbols.getD [])
              s.sh_size s.sh_entsize st.maps_st.map_fd sp.payload.asInsns with
          | badRelo a b =>
            simp only [relo_pass, hg, hrel, if_true, hgt, hp] at hev
            obtain ⟨i, s2, sp2, res, insns2, hi, h2, h3, h4, h5, h6⟩ := ih _ ev hev
            exact ⟨i, s2, sp2, res, insns2, List.mem_cons_of_mem j hi, h2, h3, h4, h5, h6⟩
          | ok patched =>
            simp only [relo_pass, hg, hrel, if_true, hgt, hp] at hev
            by_cases hnm : prog_name_matches (sp.shname.getD []) = true
            · simp only [hnm, if_true, List.mem_cons] at hev
              rcases hev with heq | hin
              · exact ⟨j, s, sp, os.attach_res st.attach_count, patched,
                  List.mem_cons_self j rest, hg, hrel, hgt, hp, heq⟩
              · obtain ⟨i, s2, sp2, res, insns2, hi, h2, h3, h4, h5, h6⟩ := ih _ ev hin
                exact ⟨i, s2, sp2, res, insns2, List.mem_cons_of_mem j hi, h2, h3, h4, h5, h6⟩
            · rw [if_neg (by simp [hnm])] at hev
              obtain ⟨i, s2, sp2, res, insns2, hi, h2, h3, h4, h5, h6⟩ := ih _ ev hev
              exact ⟨i, s2, sp2, res, insns2, List.mem_cons_of_mem j hi, h2, h3, h4, h5, h6⟩
      · simp only [relo_pass, hg] at hev
        rw [if_neg hrel] at hev
        obtain ⟨i, s2, sp, res, insns2, hi, h2, h3, h4, h5, h6⟩ := ih st ev hev
        exact ⟨i, s2, sp, res, insns2, List.mem_cons_of_mem j hi, h2, h3, h4, h5, h6⟩

theorem scan_version_abort (o : ElfObj) (cr : CreateOracle) (v : Nat) (sv : ElfSection)
    (hgv : get_sec o v = some sv) (hname : sv.shname.getD [] = version_name)
    (hsz : sv.d_size ≠ sizeof_int) :
    ∀ (L : List Nat) (st : LoadState), L.Pairwise (· < ·) → v ∈ L →
      (∀ j sj, j ∈ L → j < v → get_sec o j = some sj →
        sj.shname.getD [] ≠ maps_name) →
      (scan_sections o cr st L).1 = 1 ∧
      (∀ i d, Ev.createMap i d ∉ (scan_sections o cr st L).2.2) := by
  intro L
  induction L with
  | nil => intro st _ hv _; simp at hv
  | cons j rest ih =>
    intro st hpw hv hm
    rcases List.mem_cons.mp hv with hjv | hvr
    · subst hjv
      have hnotlic : sv.shname.getD [] ≠ license_name := by rw [hname]; decide
      simp only [scan_sections, hgv]
      rw [if_neg hnotlic, if_pos hname, if_pos hsz]
      exact ⟨rfl, by simp⟩
    · have hjv : j < v := (List.pairwise_cons.mp hpw).1 v hvr
      have ihr := fun st2 => ih st2 (List.pairwise_cons.mp hpw).2 hvr
        (fun x sx hx hlt hgx => hm x sx (by simp [hx]) hlt hgx)
      cases hg : get_sec o j with
      | none =>
        simp only [scan_sections, hg]
        exact ihr st
      | some sj =>
        simp only [scan_sections, hg]
        by_cases hlic : sj.shname.getD [] = license_name
        · rw [if_pos hlic]
          refine ⟨(ihr _).1, ?_⟩
          intro i d
          simp only [List.mem_cons]
          rintro (h | h)
          · exact Ev.noConfusion h
          · exact (ihr _).2 i d h
        · rw [if_neg hlic]
          by_cases hver : sj.shname.getD [] = version_name
          · rw [if_pos hver]
            by_cases hs2 : sj.d_size ≠ sizeof_int
            · rw [if_pos hs2]
              exact ⟨rfl, by simp⟩
            · rw [if_neg hs2]
              exact ihr _
          · rw [if_neg hver]
            have hmj : sj.shname.getD [] ≠ maps_name := hm j sj (by simp) hjv hg
            rw [if_neg hmj]
            by_cases hsym : sj.sh_type = SHT_SYMTAB
            · rw [if_pos hsym]
              exact ihr _
            · rw [if_neg hsym]
              exact ihr _

/-- C5: for every SHT_REL section whose target program section resolves,
both sections are marked processed by the relocation pass regardless of
whether the relocation itself succeeds, and the residual third pass never
emits a load-and-attach call for that target program section. -/
theorem claim_C5 (o : ElfObj) (os : Oracles) (i : Nat) (s sp : ElfSection)
    (hmem : i ∈ load_idxs o)
    (hgs : get_sec o i = some s) (hrel : s.sh_type = SHT_REL)
    (hgt : get_sec o s.sh_info = some sp) :
    i ∈ (relo_pass o os (scan_sections o os.create init_state (load_idxs o)).2.1
        (load_idxs o)).1.processed ∧
    s.sh_info ∈ (relo_pass o os (scan_sections o os.create init_state (load_idxs o)).2.1
        (load_idxs o)).1.processed ∧
    ∀ nm r, Ev.attach s.sh_info nm r ∉
      (resid_pass o os
        (relo_pass o os (scan_sections o os.create init_state (load_idxs o)).2.1
          (load_idxs o)).1 (load_idxs o)).2 := by
  obtain ⟨h1, h2⟩ := relo_pass_marks o os i s sp hgs hrel hgt (load_idxs o) _ hmem
  exact ⟨h1, h2,
    fun nm r => resid_pass_no_attach_processed o os s.sh_info (load_idxs o) _ h2 nm r⟩

/-- C5 witness: in an object with a program section (index 1), its
relocation section (index 2) and a symbol table (index 3), both 1 and 2 are
processed after the relocation pass and the residual pass emits no attach
for section 1. -/
theorem claim_C5_witness :
    2 ∈ (relo_pass c5_obj c5_os
        (scan_sections c5_obj c5_os.create init_state (load_idxs c5_obj)).2.1
        (load_idxs c5_obj)).1.processed ∧
    1 ∈ (relo_pass c5_obj c5_os
        (scan_sections c5_obj c5_os.create init_state (load_idxs c5_obj)).2.1
        (load_idxs c5_obj)).1.processed ∧
    Ev.attach 1 c5_prog_name 0 ∉
      (resid_pass c5_obj c5_os
        (relo_pass c5_obj c5_os
          (scan_sections c5_obj c5_os.create init_state (load_idxs c5_obj)).2.1
          (load_idxs c5_obj)).1 (load_idxs c5_obj)).2 := by
  have h := claim_C5 c5_obj c5_os 2 c5_rel_sec c5_prog_sec (by decide) (by decide)
    (by decide) (by decide)
  exact ⟨h.1, h.2.1, h.2.2 c5_prog_name 0⟩

/-- C10: whenever the metadata pass (license, version, map creation)
completes successfully, load_bpf_file returns 0 for every possible outcome
of the load_and_attach calls of the relocation and residual passes: their
results are discarded and never propagated to the caller. -/
theorem claim_C10 (o : ElfObj) (cr : CreateOracle) (f : Nat → Int)
    (hmeta : (scan_sections o cr init_state (load_idxs o)).1 = 0) :
    (load_bpf_file o { create := cr, attach_res := f }).1 = 0 := by
  simp [load_bpf_file, hmeta]

/-- C10 witness: a load whose only program attach call fails with -1 still
returns 0; the failing call is visible in the trace. -/
theorem claim_C10_witness :
    (load_bpf_file c10_obj ⟨c5_os.create, c10_fail⟩).1 = 0 ∧
    Ev.attach 2 c5_prog_name (-1) ∈
      (load_bpf_file c10_obj ⟨c5_os.create, c10_fail⟩).2.2 := by
  exact ⟨claim_C10 c10_obj c5_os.create c10_fail (by decide), by decide⟩

/-- C6 (code bug): a license section of 129 bytes is memcpy'd unbounded
into the 128-byte license buffer: the load continues and returns 0 (no
BadFormat error), while the copy writes byte offset 128, one past the last
valid index of the buffer. -/
theorem claim_C6_bug :
    (load_bpf_file c6_obj c5_os).1 = 0 ∧
    Ev.licenseWrite 129 ∈ (load_bpf_file c6_obj c5_os).2.2 ∧
    128 ∈ memcpy_offsets 129 ∧
    license_buf_size ≤ 128 := by
  exact ⟨by decide, by decide, by decide, by decide⟩

/-- C2 amended: only a relocation entry whose target instruction is not the
64-bit-immediate-load opcode yields the RelocationError (an out-of-range
map index goes undetected); the error is section-scoped: the load still
returns 0 and no load-and-attach call for that relocation section's target
program section ever occurs, in any pass. -/
theorem claim_C2_amended (o : ElfObj) (os : Oracles) (i : Nat) (s sp : ElfSection)
    (idx c : Nat)
    (hmeta : (scan_sections o os.create init_state (load_idxs o)).1 = 0)
    (hmem : i ∈ load_idxs o)
    (hgs : get_sec o i = some s) (hrel : s.sh_type = SHT_REL)
    (hgt : get_sec o s.sh_info = some sp)
    (hparse : parse_relo_and_apply s.payload.asRels
        ((scan_sections o os.create init_state (load_idxs o)).2.1.symbols.getD [])
        s.sh_size s.sh_entsize
        (scan_sections o os.create init_state (load_idxs o)).2.1.maps_st.map_fd
        sp.payload.asInsns = ReloResult.badRelo idx c)
    (huniq : ∀ j sj, j ∈ load_idxs o → get_sec o j = some sj → sj.sh_type = SHT_REL →
      sj.sh_info = s.sh_info → j = i) :
    (load_bpf_file o os).1 = 0 ∧
    (∀ nm r, Ev.attach s.sh_info nm r ∉ (load_bpf_file o os).2.2) := by
  have hload : load_bpf_file o os =
      (0, (resid_pass o os (relo_pass o os
            (scan_sections o os.create init_state (load_idxs o)).2.1 (load_idxs o)).1
            (load_idxs o)).1,
       (scan_sections o os.create init_state (load_idxs o)).2.2 ++
         (relo_pass o os (scan_sections o os.create init_state (load_idxs o)).2.1
            (load_idxs o)).2 ++
         (resid_pass o os (relo_pass o os
            (scan_sections o os.create init_state (load_idxs o)).2.1 (load_idxs o)).1
            (load_idxs o)).2) := by
    simp [load_bpf_file, hmeta]
  refine ⟨by rw [hload], ?_⟩
  intro nm r
  rw [hload]
  simp only [List.mem_append]
  rintro ((h | h) | h)
  · exact scan_no_attach o os.create s.sh_info nm r (load_idxs o) init_state h
  · obtain ⟨j, sj, spj, res, insns2, hj, hgj, hrelj, hgtj, hok, hev⟩ :=
      relo_pass_attach_events o os (load_idxs o) _ _ h
    have hinfo : sj.sh_info = s.sh_info := by
      injection hev with e1 e2 e3
      exact e1.symm
    have hji : j = i := huniq j sj hj hgj hrelj hinfo
    subst hji
    rw [hgs] at hgj
    injection hgj with hgj
    subst hgj
    rw [hinfo] at hgtj
    rw [hgt] at hgtj
    injection hgtj with hgtj
    subst hgtj
    rw [hparse] at hok
    exact ReloResult.noConfusion hok
  · have hmark := (relo_pass_marks o os i s sp hgs hrel hgt (load_idxs o)
      (scan_sections o os.create init_state (load_idxs o)).2.1 hmem).2
    exact resid_pass_no_attach_processed o os s.sh_info (load_idxs o) _ hmark nm r h

/-- C2 witness: in an object whose single relocation entry targets a
non-load opcode (0x07), the relocation section fails with badRelo, yet
load_bpf_file returns 0 and no attach for the target section occurs. -/
theorem claim_C2_witness :
    (load_bpf_file c2w_obj c5_os).1 = 0 ∧
    Ev.attach 1 c5_prog_name 0 ∉ (load_bpf_file c2w_obj c5_os).2.2 := by
  have huniq : ∀ j sj, j ∈ load_idxs c2w_obj → get_sec c2w_obj j = some sj →
      sj.sh_type = SHT_REL → sj.sh_info = c2w_rel_sec.sh_info → j = 2 := by
    intro j sj hj hg ht _
    have hidx : load_idxs c2w_obj = [1, 2, 3] := by decide
    rw [hidx] at hj
    simp at hj
    rcases hj with h1 | h2 | h3
    · subst h1
      rw [(by decide : get_sec c2w_obj 1 = some c2w_prog_sec)] at hg
      injection hg with hg
      subst hg
      exact absurd ht (by decide)
    · exact h2
    · subst h3
      rw [(by decide : get_sec c2w_obj 3 = some c5_sym_sec)] at hg
      injection hg with hg
      subst hg
      exact absurd ht (by decide)
  have h := claim_C2_amended c2w_obj c5_os 2 c2w_rel_sec c2w_prog_sec 0 7
    (by decide) (by decide) (by decide) (by decide) (by decide) (by decide) huniq
  exact ⟨h.1, h.2 c5_prog_name 0⟩

/-- C7 amended: a version section whose payload is not exactly 4 bytes
makes the load fail with return 1; when every maps section of the object
comes after the version section in section order, the abort happens before
any map creation, so no create_map call occurs at all. -/
theorem claim_C7_amended (o : ElfObj) (os : Oracles) (v : Nat) (sv : ElfSection)
    (hv : v ∈ load_idxs o) (hgv : get_sec o v = some sv)
    (hname : sv.shname.getD [] = version_name) (hsz : sv.d_size ≠ sizeof_int)
    (hmaps : ∀ j sj, j ∈ load_idxs o → j < v → get_sec o j = some sj →
      sj.shname.getD [] ≠ maps_name) :
    (load_bpf_file o os).1 = 1 ∧
    ∀ i d, Ev.createMap i d ∉ (load_bpf_file o os).2.2 := by
  have hpw : (load_idxs o).Pairwise (· < ·) :=
    (List.pairwise_lt_range _).drop
  have hscan := scan_version_abort o os.create v sv hgv hname hsz (load_idxs o)
    init_state hpw hv hmaps
  have hne : (scan_sections o os.create init_state (load_idxs o)).1 ≠ 0 := by
    rw [hscan.1]
    decide
  have hload : load_bpf_file o os =
      (1, (scan_sections o os.create init_state (load_idxs o)).2.1,
       (scan_sections o os.create init_state (load_idxs o)).2.2) := by
    simp only [load_bpf_file]
    rw [if_pos hne]
  exact ⟨by rw [hload], fun i d => by rw [hload]; exact hscan.2 i d⟩

/-- C7 counterexample: with the maps section (one definition) at index 1
and the malformed 3-byte version section at index 2, the load does fail,
but only after one map has already been created: the abort does not happen
"before any map is created". -/
theorem claim_C7_counterexample :
    (load_bpf_file c7_obj c5_os).1 = 1 ∧
    Ev.createMap 0 ⟨1, 4, 4, 4, 0⟩ ∈ (load_bpf_file c7_obj c5_os).2.2 := by
  exact ⟨by decide, by decide⟩

/-- C7 witness: with the malformed version section at index 1 before the
maps section at index 2, the load fails with 1 and no map is created. -/
theorem claim_C7_witness :
    (load_bpf_file c7w_obj c5_os).1 = 1 ∧
    Ev.createMap 0 ⟨1, 4, 4, 4, 0⟩ ∉ (load_bpf_file c7w_obj c5_os).2.2 := by
  have hmaps : ∀ j sj, j ∈ load_idxs c7w_obj → j < 1 → get_sec c7w_obj j = some sj →
      sj.shname.getD [] ≠ maps_name := by
    intro j sj hj hlt hg
    have hidx : load_idxs c7w_obj = [1, 2] := by decide
    rw [hidx] at hj
    simp at hj
    rcases hj with h | h <;> omega
  have h := claim_C7_amended c7w_obj c5_os 1 c7_ver_sec (by decide) (by decide)
    (by decide) (by decide) hmaps
  exact ⟨h.1, h.2 0 ⟨1, 4, 4, 4, 0⟩⟩
